import Mathlib

/-!
Verification of go-plaid: the transaction-sync pagination loop, the
asset-report poll loop and the public-token exchange handler.

Shallow embedding of `pkg/plaid/server.go`.

* The vendor API is external.  A run of a handler sees a sequence of answers
  from it; the embedding takes that sequence as an argument (`upstream k` is
  the answer to the call number `k`, counted from zero) and records every
  request the handler issues, so that statements can speak about how many
  calls were made and what they carried.
* Go `error` values are `GoError`; `GoError.Error` is the `Error()` method.
* A handler either writes a body, panics (Go run-time panic, no body is
  written) or, for the unbounded `for hasMore` loop, runs out of fuel.
-/

namespace Plaid

/-! Data model -/

/-- Error value returned by an `Execute()` call of the vendor SDK; `text` is
what its `Error()` method returns, and `plaidCode` is the `error_code` of the
response body when the error is an API error whose body decodes as a Plaid
error (none for transport errors and undecodable bodies). -/
structure ExecError where
  text : String
  plaidCode : Option String := none
  deriving DecidableEq

/-- Go `error` values met in `server.go`: the ones returned by the vendor SDK
calls, and the ones freshly built with `errors.New`. -/
inductive GoError where
  | exec (e : ExecError)
  | errorsNew (text : String)
  deriving DecidableEq

/-- The `Error()` method. -/
def GoError.Error : GoError → String
  | .exec e => e.text
  | .errorsNew t => t

/-- The fields of `plaid.Transaction` the handler reads: `GetDate()` is the
sort key; the id stands for the rest of the record. -/
structure Transaction where
  transactionId : String
  date : String
  deriving DecidableEq

/-- Entry of `plaid.RemovedTransaction`. -/
structure RemovedTransaction where
  transactionId : String
  deriving DecidableEq

/-- Result of `plaid.NewTransactionsSyncRequest(accessToken)` followed by the
optional `SetCursor`. -/
structure TransactionsSyncRequest where
  accessToken : String
  cursor : Option String
  deriving DecidableEq

/-- The getters of `plaid.TransactionsSyncResponse` used by the loop. -/
structure TransactionsSyncResponse where
  added : List Transaction
  modified : List Transaction
  removed : List RemovedTransaction
  hasMore : Bool
  nextCursor : String
  deriving DecidableEq

/-- Answers of `/transactions/sync` during one run: `upstream k` answers the
call number `k` (from zero). -/
abbrev SyncUpstream := Nat → Except ExecError TransactionsSyncResponse

/-- Local variables of `Transactions` around the `for hasMore` loop, plus the
log of the requests issued so far. -/
structure SyncState where
  cursor : Option String
  added : List Transaction
  modified : List Transaction
  removed : List RemovedTransaction
  hasMore : Bool
  requests : List TransactionsSyncRequest
  deriving DecidableEq

/-- State on entry of the loop: `cursor` nil, the three slices nil,
`hasMore := true`, no request issued. -/
def SyncState.init : SyncState :=
  { cursor := none, added := [], modified := [], removed := [],
    hasMore := true, requests := [] }

/-- How the `for hasMore` loop ends. -/
inductive LoopResult where
  | finished (s : SyncState)
  | failed (err : ExecError) (s : SyncState)
  | outOfFuel (s : SyncState)
  deriving DecidableEq

/-- The state the loop was in when it ended. -/
def LoopResult.state : LoopResult → SyncState
  | .finished s => s
  | .failed _ s => s
  | .outOfFuel s => s

/-- One pass through the body of the loop (lines 337-356): build the request,
call the vendor, and on success append the page and advance the cursor. -/
def syncStep (accessToken : String) (upstream : SyncUpstream) (s : SyncState) :
    Except (ExecError × SyncState) SyncState :=
  let request : TransactionsSyncRequest :=
    match s.cursor with
    | some c => { accessToken := accessToken, cursor := some c }
    | none => { accessToken := accessToken, cursor := none }
  let issued := s.requests ++ [request]
  match upstream s.requests.length with
  | .error err => .error (err, { s with requests := issued })
  | .ok resp =>
    .ok { cursor := some resp.nextCursor
          added := s.added ++ resp.added
          modified := s.modified ++ resp.modified
          removed := s.removed ++ resp.removed
          hasMore := resp.hasMore
          requests := issued }

/-- The loop `for hasMore { ... }`; one unit of fuel per iteration. -/
def syncLoop (accessToken : String) (upstream : SyncUpstream) : Nat → SyncState → LoopResult
  | fuel, s =>
    if s.hasMore then
      match fuel with
      | 0 => .outOfFuel s
      | fuel + 1 =>
        match syncStep accessToken upstream s with
        | .error (err, s1) => .failed err s1
        | .ok s1 => syncLoop accessToken upstream fuel s1
    else .finished s

/-- Concatenation, in page order, of one component of pages `0 .. n-1`. -/
def pagesConcat {α : Type} (f : TransactionsSyncResponse → List α)
    (pages : Nat → TransactionsSyncResponse) (n : Nat) : List α :=
  ((List.range n).map (fun k => f (pages k))).flatten

/-! The tail of `Transactions`: sort, slice, marshal -/

/-- The order `sort.Slice` is asked for: `less(i, j)` is
`added[i].GetDate() < added[j].GetDate()`, so a sorted slice has
non-decreasing dates. -/
def dateLE (a b : Transaction) : Prop := a.date ≤ b.date

instance : DecidableRel dateLE := fun a b => inferInstanceAs (Decidable (a.date ≤ b.date))

/-- Contract of Go's `sort.Slice(added, less)` for the `less` of line 360:
the slice is rearranged (a permutation) into `less`-sorted order.  The
library sort is not stable, so which permutation is returned among entries
of equal date is left open. -/
structure SliceSorter where
  sort : List Transaction → List Transaction
  perm : ∀ l, (sort l).Perm l
  sorted : ∀ l, (sort l).Sorted dateLE

/-- A sorter meeting the contract: insertion sort by date. -/
def insertionSorter : SliceSorter where
  sort := List.insertionSort dateLE
  perm := List.perm_insertionSort dateLE
  sorted := by
    intro l
    haveI : IsTotal Transaction dateLE := ⟨fun a b => le_total a.date b.date⟩
    haveI : IsTrans Transaction dateLE := ⟨fun a b c h1 h2 => le_trans h1 h2⟩
    exact List.sorted_insertionSort dateLE l

/-- Go slice expression `xs[low:]` with a run-time `low`: panics unless
`0 <= low <= len(xs)`. -/
def sliceFrom {α : Type} (xs : List α) (low : Int) : Except String (List α) :=
  if low < 0 ∨ (xs.length : Int) < low then
    .error "runtime error: slice bounds out of range"
  else .ok (xs.drop low.toNat)

/-- Lines 359-362: `sort.Slice(added, ...)` then
`latestTransactions := added[len(added)-9:]`. -/
def latestTransactions (S : SliceSorter) (added : List Transaction) :
    Except String (List Transaction) :=
  let sorted := S.sort added
  sliceFrom sorted ((sorted.length : Int) - 9)

/-- What a handler leaves on the response writer.  JSON bodies are kept
structured: `latestTransactions l` is the object with the single key
`latest_transactions`, `tokens a i` the object with the keys `access_token`
and `item_id`. -/
inductive Body where
  | text (s : String)
  | latestTransactions (txs : List Transaction)
  | tokens (accessToken itemId : String)
  deriving DecidableEq

/-- How a handler call ends. -/
inductive Outcome where
  | wrote (body : Body)
  | panicked (msg : String)
  | outOfFuel
  deriving DecidableEq

/-- Result of the `Transactions` handler with the requests it issued. -/
structure TransactionsResult where
  outcome : Outcome
  requests : List TransactionsSyncRequest
  deriving DecidableEq

/-- The handler `Transactions` (lines 324-372); `accessToken` is the stored
global. -/
def Transactions (S : SliceSorter) (accessToken : String) (upstream : SyncUpstream)
    (fuel : Nat) : TransactionsResult :=
  match syncLoop accessToken upstream fuel SyncState.init with
  | .outOfFuel s => { outcome := .outOfFuel, requests := s.requests }
  | .failed err s => { outcome := .wrote (.text err.text), requests := s.requests }
  | .finished s =>
    match latestTransactions S s.added with
    | .error msg => { outcome := .panicked msg, requests := s.requests }
    | .ok latest => { outcome := .wrote (.latestTransactions latest), requests := s.requests }

/-! The asset-report poll loop -/

/-- The field of `plaid.PlaidError` the poll loop reads. -/
structure PlaidError where
  errorCode : String
  deriving DecidableEq

/-- Response of `/asset_report/get`; `report` stands for the decoded report. -/
structure AssetReportGetResponse where
  report : String
  deriving DecidableEq

/-- Answers of `/asset_report/get` during one run, by call number. -/
abbrev ReportUpstream := Nat → Except ExecError AssetReportGetResponse

/-- What `pollForAssetReport` returns (the pointer and the error), with the
number of vendor calls made and of one-second sleeps taken. -/
structure PollResult where
  response : Option AssetReportGetResponse
  err : Option GoError
  calls : Nat
  sleeps : Nat
  deriving DecidableEq

/-- The constant `numRetries := 20`. -/
def numRetries : Nat := 20

/-- The message of the error built on line 646. -/
def timeoutText : String := "Timed out when polling for an asset report."

/-- The loop of `pollForAssetReport` from iteration `i` on, `remaining`
being `numRetries - i`.  `toPlaidError` is the SDK's `plaid.ToPlaidError`:
it returns a `PlaidError` and a conversion error, and the inner
`plaidErr, err := ...` shadows the call's `err` with that conversion error,
which is what line 640 returns. -/
def pollLoop (toPlaidError : ExecError → PlaidError × Option GoError)
    (upstream : ReportUpstream) : Nat → Nat → Nat → PollResult
  | 0, i, sleeps =>
    { response := none, err := some (.errorsNew timeoutText), calls := i, sleeps := sleeps }
  | remaining + 1, i, sleeps =>
    match upstream i with
    | .ok response => { response := some response, err := none, calls := i + 1, sleeps := sleeps }
    | .error callErr =>
      let (plaidErr, err) := toPlaidError callErr
      if plaidErr.errorCode = "PRODUCT_NOT_READY" then
        pollLoop toPlaidError upstream remaining (i + 1) (sleeps + 1)
      else
        { response := none, err := err, calls := i + 1, sleeps := sleeps }

/-- Behaviour of the SDK function `plaid.ToPlaidError` (vendor library, not
part of this repository): an API error whose body decodes yields the decoded
Plaid error and a nil error; any other error yields the zero `PlaidError`
and the conversion error `conversionError`. -/
def ToPlaidError (conversionError : GoError) (e : ExecError) : PlaidError × Option GoError :=
  match e.plaidCode with
  | some code => ({ errorCode := code }, none)
  | none => ({ errorCode := "" }, some conversionError)

/-- The function `pollForAssetReport` (lines 628-647). -/
def pollForAssetReport (toPlaidError : ExecError → PlaidError × Option GoError)
    (upstream : ReportUpstream) : PollResult :=
  pollLoop toPlaidError upstream numRetries 0 0

/-! The public-token exchange handler -/

/-- The package-level variables the handlers share: the four identifiers and
the configured product list. -/
structure Globals where
  accessToken : String
  itemID : String
  paymentID : String
  transferID : String
  PLAID_PRODUCTS : String
  deriving DecidableEq

/-- The part of `*http.Request` that `GetAccessToken` reads; `postForm` is
`r.PostForm` (empty when the form was never parsed). -/
structure Request where
  method : String
  postForm : List (String × List String)
  deriving DecidableEq

/-- The method `url.Values.Get`: the first value stored under `key`, or the
empty string. -/
def valuesGet (v : List (String × List String)) (key : String) : String :=
  match v.lookup key with
  | some (x :: _) => x
  | _ => ""

/-- Helper `itemExists` (lines 698-706). -/
def itemExists (array : List String) (product : String) : Bool :=
  match array with
  | [] => false
  | item :: rest => if item = product then true else itemExists rest product

/-- Splitting a character sequence at every occurrence of `sep`; the result
is never empty. -/
def splitChars (sep : Char) : List Char → List (List Char)
  | [] => [[]]
  | c :: cs =>
    if c = sep then [] :: splitChars sep cs
    else
      match splitChars sep cs with
      | [] => [[c]]
      | w :: ws => (c :: w) :: ws

/-- Go's `strings.Split(s, sep)` for a one-character separator. -/
def stringsSplit (s : String) (sep : Char) : List String :=
  (splitChars sep s.data).map String.mk

/-- Getters of `plaid.ItemPublicTokenExchangeResponse`. -/
structure ItemPublicTokenExchangeResponse where
  accessToken : String
  itemId : String
  deriving DecidableEq

/-- The field of `plaid.AccountBase` the transfer helper reads. -/
structure AccountBase where
  accountId : String
  deriving DecidableEq

/-- A call to the vendor API, with the arguments that vary. -/
inductive ApiCall where
  | itemPublicTokenExchange (publicToken : String)
  | accountsGet (accessToken : String)
  | transferAuthorizationCreate (accessToken accountId : String)
  | transferCreate (accessToken accountId authorizationId : String)
  deriving DecidableEq

/-- The vendor endpoints `GetAccessToken` can reach, as functions of the
arguments the handler passes.  The two transfer endpoints answer with the
authorization id and the transfer id. -/
structure PlaidApi where
  itemPublicTokenExchange : String → Except ExecError ItemPublicTokenExchangeResponse
  accountsGet : String → Except ExecError (List AccountBase)
  transferAuthorizationCreate : String → String → Except ExecError String
  transferCreate : String → String → String → Except ExecError String

/-- Helper `authorizeAndCreateTransfer` (lines 652-695): the calls it makes,
and either a panic or the pair it returns.  The error of `AccountsGet` is
dropped (`_, _`), the response is then the zero value, and
`GetAccounts()[0]` panics on an empty account list. -/
def authorizeAndCreateTransfer (api : PlaidApi) (accessToken : String) :
    List ApiCall × Except String (String × Option GoError) :=
  let c1 := ApiCall.accountsGet accessToken
  let accounts : List AccountBase :=
    match api.accountsGet accessToken with
    | .ok l => l
    | .error _ => []
  match accounts with
  | [] => ([c1], .error "runtime error: index out of range [0] with length 0")
  | first :: _ =>
    let accountID := first.accountId
    let c2 := ApiCall.transferAuthorizationCreate accessToken accountID
    match api.transferAuthorizationCreate accessToken accountID with
    | .error err => ([c1, c2], .ok ("", some (.exec err)))
    | .ok authorizationID =>
      let c3 := ApiCall.transferCreate accessToken accountID authorizationID
      match api.transferCreate accessToken accountID authorizationID with
      | .error err => ([c1, c2, c3], .ok ("", some (.exec err)))
      | .ok transferId => ([c1, c2, c3], .ok (transferId, none))

/-- Result of a handler that may update the globals: the globals after the
call, what was written, and the vendor calls made, in order. -/
structure HandlerResult where
  globals : Globals
  outcome : Outcome
  calls : List ApiCall
  deriving DecidableEq

/-- The handler `GetAccessToken` (lines 101-141).  The error returned by
`authorizeAndCreateTransfer` is overwritten by the `json.Marshal` result
before anyone reads it; marshalling a map of two strings does not fail. -/
def GetAccessToken (api : PlaidApi) (g : Globals) (r : Request) : HandlerResult :=
  if r.method ≠ "POST" then
    { globals := g, outcome := .wrote (.text "Method not supported"), calls := [] }
  else
    let publicToken := valuesGet r.postForm "public_token"
    if publicToken = "" then
      { globals := g, outcome := .wrote (.text "Cant find public token"), calls := [] }
    else
      let c0 := ApiCall.itemPublicTokenExchange publicToken
      match api.itemPublicTokenExchange publicToken with
      | .error err => { globals := g, outcome := .wrote (.text err.text), calls := [c0] }
      | .ok resp =>
        let g1 := { g with accessToken := resp.accessToken, itemID := resp.itemId }
        if itemExists (stringsSplit g1.PLAID_PRODUCTS ',') "transfer" then
          match authorizeAndCreateTransfer api g1.accessToken with
          | (calls, .error msg) =>
            { globals := g1, outcome := .panicked msg, calls := c0 :: calls }
          | (calls, .ok (transferId, _)) =>
            let g2 := { g1 with transferID := transferId }
            { globals := g2, outcome := .wrote (.tokens g2.accessToken g2.itemID),
              calls := c0 :: calls }
        else
          { globals := g1, outcome := .wrote (.tokens g1.accessToken g1.itemID),
            calls := [c0] }

/-! Reference values the statements compare the code with -/

/-- The loop state reached after `m` successful pages `pages 0 .. pages (m-1)`. -/
def stateAfter (accessToken : String) (pages : Nat → TransactionsSyncResponse) :
    Nat → SyncState
  | 0 => SyncState.init
  | m + 1 =>
    let s := stateAfter accessToken pages m
    { cursor := some (pages m).nextCursor
      added := s.added ++ (pages m).added
      modified := s.modified ++ (pages m).modified
      removed := s.removed ++ (pages m).removed
      hasMore := (pages m).hasMore
      requests := s.requests ++ [{ accessToken := accessToken, cursor := s.cursor }] }

/-- The cursor the request number `k` (from zero) has to carry: none for the
first one, then the `next_cursor` of the page before. -/
def expectedCursor (pages : Nat → TransactionsSyncResponse) : Nat → Option String
  | 0 => none
  | k + 1 => some (pages k).nextCursor

/-- The first `n` requests of a run over `pages`. -/
def expectedRequests (accessToken : String) (pages : Nat → TransactionsSyncResponse)
    (n : Nat) : List TransactionsSyncRequest :=
  (List.range n).map (fun k => { accessToken := accessToken, cursor := expectedCursor pages k })

/-- Request number `k` (from zero) of a run is well threaded: it carries the
stored access token, no cursor when it is the first one, and otherwise the
`next_cursor` of the answer to the request before it. -/
def RequestOK (accessToken : String) (upstream : SyncUpstream) (k : Nat)
    (req : TransactionsSyncRequest) : Prop :=
  req.accessToken = accessToken ∧
    match k with
    | 0 => req.cursor = none
    | j + 1 => ∃ r, upstream j = .ok r ∧ req.cursor = some r.nextCursor

/-- Two pages, the second one closing the sequence. -/
def demoPages : Nat → TransactionsSyncResponse
  | 0 => { added := [{ transactionId := "t1", date := "2024-01-02" }]
           modified := [], removed := [], hasMore := true, nextCursor := "c1" }
  | _ => { added := [{ transactionId := "t2", date := "2024-01-01" }]
           modified := [{ transactionId := "t0", date := "2023-12-31" }]
           removed := [{ transactionId := "t9" }], hasMore := false, nextCursor := "c2" }

/-- An upstream serving `demoPages` and failing from the third call on. -/
def demoUpstream : SyncUpstream := fun k =>
  if k < 2 then .ok (demoPages k) else .error { text := "INTERNAL_SERVER_ERROR" }

/-- The error a "not ready yet" answer of `/asset_report/get` comes as. -/
def notReady : ExecError :=
  { text := "400 Bad Request", plaidCode := some "PRODUCT_NOT_READY" }

/-- A well-formed vendor error carrying another error code. -/
def serverError : ExecError :=
  { text := "500 Internal Server Error", plaidCode := some "INTERNAL_SERVER_ERROR" }

/-- The error `ToPlaidError` is taken to return when it cannot convert. -/
def conversionFailed : GoError := .errorsNew "unable to convert the error to a Plaid error"

/-- A report upstream that is ready on the third call. -/
def readyOnThird : ReportUpstream := fun k =>
  if k < 2 then .error notReady else .ok { report := "report-3" }

/-- A report upstream that is never ready. -/
def neverReady : ReportUpstream := fun _ => .error notReady

/-- A report upstream failing with another error code on the second call. -/
def brokenOnSecond : ReportUpstream := fun k =>
  if k < 1 then .error notReady else .error serverError

/-- An HTTP request as a client sends it to the server: its method and the
url-encoded form fields of its body. -/
structure ClientRequest where
  method : String
  form : List (String × List String)
  deriving DecidableEq

/-- The `*http.Request` that the mux of `main.go` (lines 55-77) hands to a
handler.  The field `PostForm` is filled by `ParseForm` only, and neither
`main.go` nor `server.go` calls it (nor `FormValue` or `PostFormValue`), so
the handler sees a nil `PostForm` whatever the body holds. -/
def delivered (c : ClientRequest) : Request :=
  { method := c.method, postForm := [] }

/-- The route `/api/set_access_token` (`main.go` line 63). -/
def serveSetAccessToken (api : PlaidApi) (g : Globals) (c : ClientRequest) : HandlerResult :=
  GetAccessToken api g (delivered c)

/-- A vendor that accepts every call. -/
def acceptingApi : PlaidApi where
  itemPublicTokenExchange := fun _ => .ok { accessToken := "access-new", itemId := "item-new" }
  accountsGet := fun _ => .ok [{ accountId := "account-1" }]
  transferAuthorizationCreate := fun _ _ => .ok "authorization-1"
  transferCreate := fun _ _ _ => .ok "transfer-1"

/-- Globals of a process configured with the default product list. -/
def storedGlobals : Globals :=
  { accessToken := "access-old", itemID := "item-old", paymentID := "payment-old",
    transferID := "transfer-old", PLAID_PRODUCTS := "transactions" }

/-- Globals of a process configured with the transfer product. -/
def transferGlobals : Globals :=
  { accessToken := "access-old", itemID := "item-old", paymentID := "payment-old",
    transferID := "transfer-old", PLAID_PRODUCTS := "transfer" }

/-- A POST whose body carries a public token. -/
def tokenPost : ClientRequest :=
  { method := "POST", form := [("public_token", ["public-1"])] }

/-- An upstream answering a single page without entries. -/
def emptyUpstream : SyncUpstream := fun _ =>
  .ok { added := [], modified := [], removed := [], hasMore := false, nextCursor := "" }

/-- Ten transactions, dated out of order. -/
def tenTransactions : List Transaction :=
  [ { transactionId := "a", date := "2024-03-01" }, { transactionId := "b", date := "2024-01-15" },
    { transactionId := "c", date := "2024-02-11" }, { transactionId := "d", date := "2024-01-02" },
    { transactionId := "e", date := "2024-03-09" }, { transactionId := "f", date := "2024-02-28" },
    { transactionId := "g", date := "2024-01-15" }, { transactionId := "h", date := "2024-04-01" },
    { transactionId := "i", date := "2023-12-31" }, { transactionId := "j", date := "2024-02-11" } ]

/-- An upstream whose second call fails. -/
def failingUpstream : SyncUpstream := fun k =>
  if k < 1 then .ok (demoPages k) else .error { text := "RATE_LIMIT_EXCEEDED" }

/-! Startup configuration -/

/-- The package-level configuration variables set by the startup function. -/
structure Config where
  PLAID_CLIENT_ID : String
  PLAID_SECRET : String
  PLAID_ENV : String
  PLAID_PRODUCTS : String
  PLAID_COUNTRY_CODES : String
  PLAID_REDIRECT_URI : String
  APP_PORT : String
  deriving DecidableEq

/-- The values of the map `environments` (lines 34-38). -/
inductive Environment where
  | sandbox
  | development
  | production
  deriving DecidableEq

/-- The map `environments`; a missing key gives the zero value, kept here as
none. -/
def environments (name : String) : Option Environment :=
  if name = "sandbox" then some .sandbox
  else if name = "development" then some .development
  else if name = "production" then some .production
  else none

/-- How the startup function ends: `log.Fatal` prints the message and exits
the process; otherwise the variables are set and the client is built for
`clientEnvironment`. -/
inductive InitResult where
  | fatal (msg : String)
  | started (cfg : Config) (clientEnvironment : Option Environment)
  deriving DecidableEq

/-- The startup function `init` (lines 40-87).  `getenv` is `os.Getenv` as it
answers once `godotenv.Load()` has run: the empty string for a variable that
is unset.  The two checks after the defaults repeat the first one. -/
def init (getenv : String → String) : InitResult :=
  let clientId := getenv "PLAID_CLIENT_ID"
  let secret := getenv "PLAID_SECRET"
  if clientId = "" ∨ secret = "" then
    .fatal "Error: PLAID_SECRET or PLAID_CLIENT_ID is not set. Did you copy .env.example to .env and fill it out?"
  else
    let plaidEnv := getenv "PLAID_ENV"
    let products := getenv "PLAID_PRODUCTS"
    let countryCodes := getenv "PLAID_COUNTRY_CODES"
    let redirectUri := getenv "PLAID_REDIRECT_URI"
    let appPort := getenv "APP_PORT"
    let products := if products = "" then "transactions" else products
    let countryCodes := if countryCodes = "" then "US" else countryCodes
    let plaidEnv := if plaidEnv = "" then "sandbox" else plaidEnv
    let appPort := if appPort = "" then "8000" else appPort
    if clientId = "" then
      .fatal "PLAID_CLIENT_ID is not set. Make sure to fill out the .env file"
    else if secret = "" then
      .fatal "PLAID_SECRET is not set. Make sure to fill out the .env file"
    else
      .started
        { PLAID_CLIENT_ID := clientId, PLAID_SECRET := secret, PLAID_ENV := plaidEnv,
          PLAID_PRODUCTS := products, PLAID_COUNTRY_CODES := countryCodes,
          PLAID_REDIRECT_URI := redirectUri, APP_PORT := appPort }
        (environments plaidEnv)

/-- An environment with the two credentials and a port, nothing else. -/
def demoGetenv (name : String) : String :=
  if name = "PLAID_CLIENT_ID" then "client-1"
  else if name = "PLAID_SECRET" then "secret-1"
  else if name = "APP_PORT" then "9000"
  else ""

end Plaid

namespace Plaid

/-! Lemmas on the pagination loop -/

theorem syncStep_of_ok (token : String) (upstream : SyncUpstream) (s : SyncState)
    (p : TransactionsSyncResponse) (h : upstream s.requests.length = .ok p) :
    syncStep token upstream s = .ok
      { cursor := some p.nextCursor
        added := s.added ++ p.added
        modified := s.modified ++ p.modified
        removed := s.removed ++ p.removed
        hasMore := p.hasMore
        requests := s.requests ++ [{ accessToken := token, cursor := s.cursor }] } := by
  unfold syncStep
  simp only [h]
  cases hc : s.cursor <;> rfl

theorem syncStep_of_error (token : String) (upstream : SyncUpstream) (s : SyncState)
    (e : ExecError) (h : upstream s.requests.length = .error e) :
    syncStep token upstream s = .error
      (e, { s with requests := s.requests ++ [{ accessToken := token, cursor := s.cursor }] }) := by
  unfold syncStep
  simp only [h]
  cases hc : s.cursor <;> rfl

theorem stateAfter_requests_length (token : String) (pages : Nat → TransactionsSyncResponse)
    (m : Nat) : (stateAfter token pages m).requests.length = m := by
  induction m with
  | zero => rfl
  | succ m ih => simp [stateAfter, ih]

theorem stateAfter_cursor (token : String) (pages : Nat → TransactionsSyncResponse)
    (m : Nat) : (stateAfter token pages m).cursor = expectedCursor pages m := by
  cases m <;> rfl

theorem stateAfter_requests (token : String) (pages : Nat → TransactionsSyncResponse)
    (m : Nat) : (stateAfter token pages m).requests = expectedRequests token pages m := by
  induction m with
  | zero => rfl
  | succ m ih =>
    simp [stateAfter, expectedRequests, List.range_succ, stateAfter_cursor] at ih ⊢
    exact ih

theorem stateAfter_added (token : String) (pages : Nat → TransactionsSyncResponse)
    (m : Nat) : (stateAfter token pages m).added = pagesConcat (fun p => p.added) pages m := by
  induction m with
  | zero => rfl
  | succ m ih => simp [stateAfter, pagesConcat, List.range_succ] at ih ⊢; rw [ih]

theorem stateAfter_modified (token : String) (pages : Nat → TransactionsSyncResponse)
    (m : Nat) :
    (stateAfter token pages m).modified = pagesConcat (fun p => p.modified) pages m := by
  induction m with
  | zero => rfl
  | succ m ih => simp [stateAfter, pagesConcat, List.range_succ] at ih ⊢; rw [ih]

theorem stateAfter_removed (token : String) (pages : Nat → TransactionsSyncResponse)
    (m : Nat) :
    (stateAfter token pages m).removed = pagesConcat (fun p => p.removed) pages m := by
  induction m with
  | zero => rfl
  | succ m ih => simp [stateAfter, pagesConcat, List.range_succ] at ih ⊢; rw [ih]

theorem stateAfter_hasMore_succ (token : String) (pages : Nat → TransactionsSyncResponse)
    (m : Nat) : (stateAfter token pages (m + 1)).hasMore = (pages m).hasMore := rfl

theorem syncLoop_of_not_hasMore (token : String) (upstream : SyncUpstream) (fuel : Nat)
    (s : SyncState) (h : s.hasMore = false) :
    syncLoop token upstream fuel s = .finished s := by
  unfold syncLoop; simp [h]

theorem syncLoop_step_ok (token : String) (upstream : SyncUpstream)
    (pages : Nat → TransactionsSyncResponse) (i fuel : Nat)
    (hcur : (stateAfter token pages i).hasMore = true)
    (hok : upstream i = .ok (pages i)) :
    syncLoop token upstream (fuel + 1) (stateAfter token pages i)
      = syncLoop token upstream fuel (stateAfter token pages (i + 1)) := by
  have hstep := syncStep_of_ok token upstream (stateAfter token pages i) (pages i)
    (by rw [stateAfter_requests_length]; exact hok)
  rw [syncLoop]
  simp only [hcur, if_true, hstep]
  rfl

theorem syncLoop_step_error (token : String) (upstream : SyncUpstream)
    (pages : Nat → TransactionsSyncResponse) (i fuel : Nat) (e : ExecError)
    (hcur : (stateAfter token pages i).hasMore = true)
    (herr : upstream i = .error e) :
    syncLoop token upstream (fuel + 1) (stateAfter token pages i)
      = .failed e { stateAfter token pages i with
          requests := expectedRequests token pages (i + 1) } := by
  have hstep := syncStep_of_error token upstream (stateAfter token pages i) e
    (by rw [stateAfter_requests_length]; exact herr)
  rw [syncLoop]
  simp only [hcur, if_true, hstep]
  have hr := stateAfter_requests token pages (i + 1)
  simp only [stateAfter] at hr
  rw [hr]

/-- Running the loop from the state after `i` pages, while the pages
`i .. i+d-1` arrive and each of them announces a further page, reaches the
state after `i + d` pages with the fuel reduced by `d`. -/
theorem syncLoop_advance (token : String) (upstream : SyncUpstream)
    (pages : Nat → TransactionsSyncResponse) (d : Nat) :
    ∀ (i fuel : Nat),
      (∀ k, i ≤ k → k < i + d → upstream k = .ok (pages k) ∧ (pages k).hasMore = true) →
      (stateAfter token pages i).hasMore = true →
      syncLoop token upstream (fuel + d) (stateAfter token pages i)
        = syncLoop token upstream fuel (stateAfter token pages (i + d)) := by
  induction d with
  | zero => intro i fuel _ _; rfl
  | succ d ih =>
    intro i fuel hok hcur
    have h0 := hok i (le_refl _) (by omega)
    rw [show fuel + (d + 1) = (fuel + d) + 1 by omega,
      syncLoop_step_ok token upstream pages i (fuel + d) hcur h0.1,
      show i + (d + 1) = (i + 1) + d by omega]
    apply ih (i + 1) fuel
    · intro k h1 h2; exact hok k (by omega) (by omega)
    · rw [stateAfter_hasMore_succ]; exact h0.2

theorem stateAfter_hasMore_of_all_more (token : String)
    (pages : Nat → TransactionsSyncResponse) (m : Nat)
    (h : ∀ k, k < m → (pages k).hasMore = true) :
    (stateAfter token pages m).hasMore = true := by
  cases m with
  | zero => rfl
  | succ m => rw [stateAfter_hasMore_succ]; exact h m (by omega)

/-- C1. Pagination loop: if the first `n` sync calls succeed (`n >= 1`) and
the `n`-th page is the first one with `has_more = false`, then with any fuel
of at least `n` the loop terminates normally after exactly `n` requests, and
the accumulated added, modified and removed slices are the concatenations, in
page order, of those of pages `1 .. n`. -/
theorem syncLoop_terminates_with_all_pages (token : String) (upstream : SyncUpstream)
    (pages : Nat → TransactionsSyncResponse) (n fuel : Nat)
    (hn : 1 ≤ n)
    (hok : ∀ k, k < n → upstream k = .ok (pages k))
    (hmore : ∀ k, k < n → ((pages k).hasMore = true ↔ k + 1 < n))
    (hfuel : n ≤ fuel) :
    ∃ s, syncLoop token upstream fuel SyncState.init = .finished s ∧
      s.requests.length = n ∧
      s.added = pagesConcat (fun p => p.added) pages n ∧
      s.modified = pagesConcat (fun p => p.modified) pages n ∧
      s.removed = pagesConcat (fun p => p.removed) pages n := by
  obtain ⟨m, rfl⟩ : ∃ m, n = m + 1 := ⟨n - 1, by omega⟩
  obtain ⟨f, rfl⟩ : ∃ f, fuel = f + 1 + m := ⟨fuel - (m + 1), by omega⟩
  refine ⟨stateAfter token pages (m + 1), ?_, stateAfter_requests_length _ _ _,
    stateAfter_added _ _ _, stateAfter_modified _ _ _, stateAfter_removed _ _ _⟩
  have hpre : ∀ k, k < m → (pages k).hasMore = true :=
    fun k hk => (hmore k (by omega)).2 (by omega)
  have hadv := syncLoop_advance token upstream pages m 0 (f + 1)
    (fun k _ hk => ⟨hok k (by omega), hpre k (by omega)⟩) rfl
  rw [Nat.zero_add] at hadv
  have hlast : (pages m).hasMore = false := by
    have := hmore m (by omega)
    cases hb : (pages m).hasMore
    · rfl
    · rw [hb] at this; simp at this
  show syncLoop token upstream (f + 1 + m) (stateAfter token pages 0) = _
  rw [hadv, syncLoop_step_ok token upstream pages m f
    (stateAfter_hasMore_of_all_more token pages m hpre) (hok m (by omega))]
  exact syncLoop_of_not_hasMore _ _ _ _ (by rw [stateAfter_hasMore_succ]; exact hlast)

/-- Witness of C1: two pages, fuel two. -/
theorem syncLoop_terminates_with_all_pages_witness :
    ∃ s, syncLoop "tok" demoUpstream 2 SyncState.init = .finished s ∧
      s.requests.length = 2 ∧
      s.added = pagesConcat (fun p => p.added) demoPages 2 ∧
      s.modified = pagesConcat (fun p => p.modified) demoPages 2 ∧
      s.removed = pagesConcat (fun p => p.removed) demoPages 2 :=
  syncLoop_terminates_with_all_pages "tok" demoUpstream demoPages 2 2 (by decide)
    (by intro k hk; interval_cases k <;> rfl)
    (by intro k hk; interval_cases k <;> simp [demoPages])
    (by decide)

/-! Request threading -/

theorem Transactions_requests (S : SliceSorter) (token : String) (upstream : SyncUpstream)
    (fuel : Nat) :
    (Transactions S token upstream fuel).requests
      = (syncLoop token upstream fuel SyncState.init).state.requests := by
  unfold Transactions
  cases syncLoop token upstream fuel SyncState.init with
  | outOfFuel s => rfl
  | failed e s => rfl
  | finished s =>
    simp only [LoopResult.state]
    cases latestTransactions S s.added <;> rfl

theorem requestOK_append (token : String) (upstream : SyncUpstream)
    (log : List TransactionsSyncRequest) (cur : Option String)
    (hlog : ∀ k req, log[k]? = some req → RequestOK token upstream k req)
    (hcur : RequestOK token upstream log.length { accessToken := token, cursor := cur }) :
    ∀ k req, (log ++ [{ accessToken := token, cursor := cur }])[k]? = some req →
      RequestOK token upstream k req := by
  intro k req h
  by_cases hk : k < log.length
  · rw [List.getElem?_append_left hk] at h
    exact hlog k req h
  · have hk2 : log.length ≤ k := by omega
    rw [List.getElem?_append_right hk2] at h
    have : k - log.length = 0 := by
      by_contra hne
      have : ([({ accessToken := token, cursor := cur } : TransactionsSyncRequest)])[k - log.length]?
          = none := by
        apply List.getElem?_eq_none
        simp; omega
      rw [this] at h; cases h
    rw [this] at h
    simp at h
    have hk3 : k = log.length := by omega
    subst hk3; subst h
    exact hcur

theorem syncLoop_requests_ok (token : String) (upstream : SyncUpstream) :
    ∀ (fuel : Nat) (s : SyncState),
      (∀ k req, s.requests[k]? = some req → RequestOK token upstream k req) →
      RequestOK token upstream s.requests.length { accessToken := token, cursor := s.cursor } →
      ∀ k req, (syncLoop token upstream fuel s).state.requests[k]? = some req →
        RequestOK token upstream k req := by
  intro fuel
  induction fuel with
  | zero =>
    intro s hlog _
    unfold syncLoop
    cases hm : s.hasMore <;> simpa [LoopResult.state] using hlog
  | succ fuel ih =>
    intro s hlog hcur
    unfold syncLoop
    cases hm : s.hasMore
    · simpa [LoopResult.state] using hlog
    · simp only [if_true]
      cases hu : upstream s.requests.length with
      | error e =>
        rw [syncStep_of_error token upstream s e hu]
        simp only [LoopResult.state]
        exact requestOK_append token upstream s.requests s.cursor hlog hcur
      | ok p =>
        rw [syncStep_of_ok token upstream s p hu]
        simp only
        apply ih
        · exact requestOK_append token upstream s.requests s.cursor hlog hcur
        · refine ⟨rfl, ?_⟩
          simp only [List.length_append, List.length_singleton]
          exact ⟨p, hu, rfl⟩

theorem syncLoop_requests_nonempty (token : String) (upstream : SyncUpstream) (fuel : Nat) :
    (syncLoop token upstream (fuel + 1) SyncState.init).state.requests ≠ [] := by
  have hgrow : ∀ (f : Nat) (s : SyncState), s.requests ≠ [] →
      (syncLoop token upstream f s).state.requests ≠ [] := by
    intro f
    induction f with
    | zero =>
      intro s hs
      unfold syncLoop
      cases hm : s.hasMore <;> simpa [LoopResult.state] using hs
    | succ f ih =>
      intro s hs
      unfold syncLoop
      cases hm : s.hasMore
      · simpa [LoopResult.state] using hs
      · simp only [if_true]
        cases hu : upstream s.requests.length with
        | error e =>
          rw [syncStep_of_error token upstream s e hu]
          simp [LoopResult.state]
        | ok p =>
          rw [syncStep_of_ok token upstream s p hu]
          simp only
          apply ih
          simp
  unfold syncLoop
  simp only [SyncState.init, if_true]
  cases hu : upstream ([] : List TransactionsSyncRequest).length with
  | error e =>
    have := syncStep_of_error token upstream SyncState.init e hu
    simp only [SyncState.init] at this
    rw [this]
    simp [LoopResult.state]
  | ok p =>
    have := syncStep_of_ok token upstream SyncState.init p hu
    simp only [SyncState.init] at this
    rw [this]
    simp only
    apply hgrow
    simp

/-- C8. Cursor threading in `Transactions`: whatever the upstream answers and
however the run ends, every request issued carries the stored access token,
the first one carries no cursor, and request `k >= 2` carries the
`next_cursor` of the (successful) answer number `k-1`; and a first request is
always issued. -/
theorem Transactions_cursor_threading (S : SliceSorter) (token : String)
    (upstream : SyncUpstream) (fuel : Nat) :
    (Transactions S token upstream (fuel + 1)).requests ≠ [] ∧
    ∀ k req, (Transactions S token upstream fuel).requests[k]? = some req →
      RequestOK token upstream k req := by
  constructor
  · rw [Transactions_requests]
    exact syncLoop_requests_nonempty token upstream fuel
  · rw [Transactions_requests]
    apply syncLoop_requests_ok
    · intro k req h; simp [SyncState.init] at h
    · exact ⟨rfl, rfl⟩

/-! Failure of a page fetch -/

/-- C7. Failure in `Transactions`: if the sync requests `1 .. k-1` succeed
with `has_more = true` and request `k` fails with error `e`, then (with fuel
at least `k`) the handler stops after exactly `k` requests, the body written
is exactly the text of `e`, and it is not a `latest_transactions` object. -/
theorem Transactions_page_failure (S : SliceSorter) (token : String)
    (upstream : SyncUpstream) (pages : Nat → TransactionsSyncResponse)
    (k fuel : Nat) (e : ExecError)
    (hk : 1 ≤ k)
    (hok : ∀ j, j + 1 < k → upstream j = .ok (pages j) ∧ (pages j).hasMore = true)
    (herr : upstream (k - 1) = .error e)
    (hfuel : k ≤ fuel) :
    Transactions S token upstream fuel
        = { outcome := .wrote (.text e.text), requests := expectedRequests token pages k } ∧
      (Transactions S token upstream fuel).requests.length = k ∧
      ∀ l, (Transactions S token upstream fuel).outcome ≠ .wrote (.latestTransactions l) := by
  obtain ⟨m, rfl⟩ : ∃ m, k = m + 1 := ⟨k - 1, by omega⟩
  obtain ⟨f, rfl⟩ : ∃ f, fuel = f + 1 + m := ⟨fuel - (m + 1), by omega⟩
  have hadv := syncLoop_advance token upstream pages m 0 (f + 1)
    (fun j _ hj => hok j (by omega)) rfl
  rw [Nat.zero_add] at hadv
  have hloop : syncLoop token upstream (f + 1 + m) SyncState.init
      = .failed e { stateAfter token pages m with
          requests := expectedRequests token pages (m + 1) } := by
    show syncLoop token upstream (f + 1 + m) (stateAfter token pages 0) = _
    rw [hadv]
    exact syncLoop_step_error token upstream pages m f e
      (stateAfter_hasMore_of_all_more token pages m (fun j hj => (hok j (by omega)).2))
      (by simpa using herr)
  have hT : Transactions S token upstream (f + 1 + m)
      = { outcome := .wrote (.text e.text),
          requests := expectedRequests token pages (m + 1) } := by
    unfold Transactions
    rw [hloop]
  refine ⟨hT, ?_, ?_⟩
  · rw [hT]; simp [expectedRequests]
  · intro l; rw [hT]; simp

/-- Witness of C7: the first page arrives, the second request fails. -/
theorem Transactions_page_failure_witness :
    Transactions insertionSorter "tok" failingUpstream 5
        = { outcome := .wrote (.text "RATE_LIMIT_EXCEEDED"),
            requests := expectedRequests "tok" demoPages 2 } ∧
      (Transactions insertionSorter "tok" failingUpstream 5).requests.length = 2 ∧
      ∀ l, (Transactions insertionSorter "tok" failingUpstream 5).outcome
        ≠ .wrote (.latestTransactions l) :=
  Transactions_page_failure insertionSorter "tok" failingUpstream demoPages 2 5
    { text := "RATE_LIMIT_EXCEEDED" } (by decide)
    (by intro j hj; have : j = 0 := by omega
        subst this; exact ⟨rfl, rfl⟩)
    rfl (by decide)

/-! Sorting and slicing -/

theorem sort_length (S : SliceSorter) (added : List Transaction) :
    (S.sort added).length = added.length := (S.perm added).length_eq

theorem latestTransactions_of_short (S : SliceSorter) (added : List Transaction)
    (h : added.length < 9) :
    latestTransactions S added = .error "runtime error: slice bounds out of range" := by
  unfold latestTransactions sliceFrom
  simp only [sort_length]
  rw [if_pos]
  left; omega

theorem latestTransactions_of_nine (S : SliceSorter) (added : List Transaction)
    (h : 9 ≤ added.length) :
    latestTransactions S added = .ok ((S.sort added).drop (added.length - 9)) := by
  unfold latestTransactions sliceFrom
  simp only [sort_length]
  rw [if_neg (by omega)]
  congr 2
  omega

theorem latestTransactions_ok_iff (S : SliceSorter) (added r : List Transaction) :
    latestTransactions S added = .ok r ↔
      9 ≤ added.length ∧ r = (S.sort added).drop (added.length - 9) := by
  by_cases h : 9 ≤ added.length
  · rw [latestTransactions_of_nine S added h]
    constructor
    · intro e; injection e with e; exact ⟨h, e.symm⟩
    · rintro ⟨_, rfl⟩; rfl
  · rw [latestTransactions_of_short S added (by omega)]
    constructor
    · intro e; cases e
    · rintro ⟨h9, _⟩; exact absurd h9 h

/-- C2. On an accumulated `added` of fewer than nine entries the slice start
`len(added)-9` is negative and is not clamped: the slice expression panics,
so the handler writes no `latest_transactions`.  Shown for every short
sequence and on the run where the upstream answers one empty page. -/
theorem Transactions_short_added_panics (S : SliceSorter) :
    (∀ added : List Transaction, added.length < 9 →
      latestTransactions S added = .error "runtime error: slice bounds out of range") ∧
    Transactions S "tok" emptyUpstream 1
      = { outcome := .panicked "runtime error: slice bounds out of range",
          requests := [{ accessToken := "tok", cursor := none }] } := by
  refine ⟨latestTransactions_of_short S, ?_⟩
  have hloop : syncLoop "tok" emptyUpstream 1 SyncState.init
      = .finished { cursor := some "", added := [], modified := [], removed := [],
                    hasMore := false,
                    requests := [{ accessToken := "tok", cursor := none }] } := by
    decide
  unfold Transactions
  rw [hloop]
  simp only
  rw [latestTransactions_of_short S [] (by decide)]

/-- C3. Whenever `latest_transactions` is produced it has at most nine entries
and non-decreasing dates, both for the sort-and-slice step on any accumulated
`added` and for any body the handler writes; and the step does produce it for
every `added` of nine entries or more. -/
theorem latestTransactions_at_most_nine_sorted (S : SliceSorter)
    (added : List Transaction) :
    (∀ r, latestTransactions S added = .ok r → r.length ≤ 9 ∧ r.Sorted dateLE) ∧
    (9 ≤ added.length → ∃ r, latestTransactions S added = .ok r) ∧
    (∀ token upstream fuel l,
      (Transactions S token upstream fuel).outcome = .wrote (.latestTransactions l) →
        l.length ≤ 9 ∧ l.Sorted dateLE) := by
  have key : ∀ (a r : List Transaction), latestTransactions S a = .ok r →
      r.length ≤ 9 ∧ r.Sorted dateLE := by
    intro a r hr
    obtain ⟨h9, rfl⟩ := (latestTransactions_ok_iff S a r).1 hr
    constructor
    · rw [List.length_drop, sort_length]; omega
    · exact (S.sorted a).sublist (List.drop_sublist _ _)
  refine ⟨key added, fun h => ⟨_, latestTransactions_of_nine S added h⟩, ?_⟩
  intro token upstream fuel l hl
  unfold Transactions at hl
  cases hloop : syncLoop token upstream fuel SyncState.init with
  | outOfFuel s => rw [hloop] at hl; simp at hl
  | failed e s => rw [hloop] at hl; simp at hl
  | finished s =>
    rw [hloop] at hl
    simp only at hl
    cases hlat : latestTransactions S s.added with
    | error m => rw [hlat] at hl; simp at hl
    | ok r =>
      rw [hlat] at hl
      simp only [Outcome.wrote.injEq, Body.latestTransactions.injEq] at hl
      subst hl
      exact key s.added r hlat

/-- C9. For an accumulated `added` of at least nine entries,
`latest_transactions` is produced, has exactly nine entries, is a
sub-multiset of `added`, and every entry of `added` left out of it is dated
no later than every entry kept. -/
theorem latestTransactions_nine_most_recent (S : SliceSorter) (added : List Transaction)
    (h : 9 ≤ added.length) :
    ∃ r, latestTransactions S added = .ok r ∧ r.length = 9 ∧
      (r : Multiset Transaction) ≤ (added : Multiset Transaction) ∧
      ∀ x ∈ (added : Multiset Transaction) - (r : Multiset Transaction),
        ∀ y ∈ r, x.date ≤ y.date := by
  refine ⟨_, latestTransactions_of_nine S added h, ?_, ?_, ?_⟩
  · rw [List.length_drop, sort_length]; omega
  · have h1 : ((S.sort added).drop (added.length - 9) : Multiset Transaction)
        ≤ (S.sort added : Multiset Transaction) :=
      Multiset.coe_le.2 (List.drop_sublist _ _).subperm
    have h2 : (S.sort added : Multiset Transaction) = (added : Multiset Transaction) :=
      Multiset.coe_eq_coe.2 (S.perm added)
    rw [← h2]; exact h1
  · intro x hx y hy
    have hsplit : (added : Multiset Transaction)
        = ((S.sort added).take (added.length - 9) : Multiset Transaction)
          + ((S.sort added).drop (added.length - 9) : Multiset Transaction) := by
      rw [Multiset.coe_add, List.take_append_drop]
      exact (Multiset.coe_eq_coe.2 (S.perm added)).symm
    rw [hsplit, add_tsub_cancel_right] at hx
    have hx2 : x ∈ (S.sort added).take (added.length - 9) := by simpa using hx
    have hs := S.sorted added
    rw [← List.take_append_drop (added.length - 9) (S.sort added)] at hs
    exact (List.pairwise_append.1 hs).2.2 x hx2 y hy

/-- Witness of C9: ten transactions. -/
theorem latestTransactions_nine_most_recent_witness :
    ∃ r, latestTransactions insertionSorter tenTransactions = .ok r ∧ r.length = 9 ∧
      (r : Multiset Transaction) ≤ (tenTransactions : Multiset Transaction) ∧
      ∀ x ∈ (tenTransactions : Multiset Transaction) - (r : Multiset Transaction),
        ∀ y ∈ r, x.date ≤ y.date :=
  latestTransactions_nine_most_recent insertionSorter tenTransactions (by decide)

/-! The poll loop -/

/-- While the calls `i .. i+d-1` fail with an error tagged
`PRODUCT_NOT_READY`, the loop sleeps after each of them and goes on. -/
theorem pollLoop_not_ready (conv : ExecError → PlaidError × Option GoError)
    (upstream : ReportUpstream) (d : Nat) :
    ∀ (r i sl : Nat),
      (∀ k, i ≤ k → k < i + d →
        ∃ e, upstream k = .error e ∧ (conv e).1.errorCode = "PRODUCT_NOT_READY") →
      pollLoop conv upstream (r + d) i sl = pollLoop conv upstream r (i + d) (sl + d) := by
  induction d with
  | zero => intro r i sl _; rfl
  | succ d ih =>
    intro r i sl h
    obtain ⟨e, hu, hc⟩ := h i (le_refl _) (by omega)
    have hstep : pollLoop conv upstream (r + d + 1) i sl
        = pollLoop conv upstream (r + d) (i + 1) (sl + 1) := by
      rw [pollLoop]
      simp only [hu]
      rcases hce : conv e with ⟨pe, ce⟩
      rw [hce] at hc
      simp only at hc
      simp [hc]
    rw [show r + (d + 1) = r + d + 1 by omega, hstep, ih r (i + 1) (sl + 1)
      (fun k h1 h2 => h k (by omega) (by omega))]
    congr 1 <;> omega

/-- C4. Poll success: for `1 <= N <= 20`, if the first `N-1` calls fail with
an error tagged `PRODUCT_NOT_READY` and call `N` succeeds with report `R`,
then `pollForAssetReport` returns `R` and a nil error after exactly `N` calls
(having slept after each of the `N-1` failures). -/
theorem pollForAssetReport_success (conv : ExecError → PlaidError × Option GoError)
    (upstream : ReportUpstream) (N : Nat) (R : AssetReportGetResponse)
    (h1 : 1 ≤ N) (h20 : N ≤ 20)
    (hnot : ∀ k, k + 1 < N →
      ∃ e, upstream k = .error e ∧ (conv e).1.errorCode = "PRODUCT_NOT_READY")
    (hok : upstream (N - 1) = .ok R) :
    pollForAssetReport conv upstream
      = { response := some R, err := none, calls := N, sleeps := N - 1 } := by
  obtain ⟨m, rfl⟩ : ∃ m, N = m + 1 := ⟨N - 1, by omega⟩
  obtain ⟨r, hr⟩ : ∃ r, numRetries = r + 1 + m := ⟨20 - (m + 1), by unfold numRetries; omega⟩
  unfold pollForAssetReport
  rw [hr, pollLoop_not_ready conv upstream m (r + 1) 0 0 (fun k _ hk => hnot k (by omega))]
  rw [pollLoop]
  simp only [Nat.zero_add, Nat.add_sub_cancel] at hok ⊢
  rw [hok]

/-- Witness of C4: ready on the third call. -/
theorem pollForAssetReport_success_witness :
    pollForAssetReport (ToPlaidError conversionFailed) readyOnThird
      = { response := some { report := "report-3" }, err := none, calls := 3, sleeps := 3 - 1 } :=
  pollForAssetReport_success (ToPlaidError conversionFailed) readyOnThird 3
    { report := "report-3" } (by decide) (by decide)
    (by intro k hk; exact ⟨notReady, by
          have : k < 2 := by omega
          simp [readyOnThird, this], rfl⟩)
    rfl

/-- C5. Poll timeout: if every one of the first twenty calls fails with an
error tagged `PRODUCT_NOT_READY`, then `pollForAssetReport` makes exactly
twenty calls, sleeps after each of them, and returns no report with the
error built from the text `Timed out when polling for an asset report.`,
which is none of the errors the vendor calls returned. -/
theorem pollForAssetReport_timeout (conv : ExecError → PlaidError × Option GoError)
    (upstream : ReportUpstream)
    (hnot : ∀ k, k < 20 →
      ∃ e, upstream k = .error e ∧ (conv e).1.errorCode = "PRODUCT_NOT_READY") :
    pollForAssetReport conv upstream
        = { response := none
            err := some (.errorsNew "Timed out when polling for an asset report.")
            calls := 20, sleeps := 20 } ∧
      ∀ k e, upstream k = .error e → (pollForAssetReport conv upstream).err ≠ some (.exec e) := by
  have hrun : pollForAssetReport conv upstream
      = { response := none
          err := some (.errorsNew "Timed out when polling for an asset report.")
          calls := 20, sleeps := 20 } := by
    unfold pollForAssetReport
    rw [show numRetries = 0 + 20 from rfl,
      pollLoop_not_ready conv upstream 20 0 0 0 (fun k _ hk => hnot k (by omega))]
    rfl
  refine ⟨hrun, ?_⟩
  intro k e _
  rw [hrun]
  simp

/-- Witness of C5: an upstream that is never ready. -/
theorem pollForAssetReport_timeout_witness :
    pollForAssetReport (ToPlaidError conversionFailed) neverReady
        = { response := none
            err := some (.errorsNew "Timed out when polling for an asset report.")
            calls := 20, sleeps := 20 } ∧
      ∀ k e, neverReady k = .error e →
        (pollForAssetReport (ToPlaidError conversionFailed) neverReady).err ≠ some (.exec e) :=
  pollForAssetReport_timeout (ToPlaidError conversionFailed) neverReady
    (fun _ _ => ⟨notReady, rfl, rfl⟩)

/-- What the loop does on the first error that is not tagged
`PRODUCT_NOT_READY`: it stops at once, without a further sleep, returns no
report, and returns the error of the conversion, not the one of the call. -/
theorem pollForAssetReport_abort (conv : ExecError → PlaidError × Option GoError)
    (upstream : ReportUpstream) (k : Nat) (e : ExecError)
    (h1 : 1 ≤ k) (h20 : k ≤ 20)
    (hnot : ∀ j, j + 1 < k →
      ∃ e1, upstream j = .error e1 ∧ (conv e1).1.errorCode = "PRODUCT_NOT_READY")
    (herr : upstream (k - 1) = .error e)
    (hcode : (conv e).1.errorCode ≠ "PRODUCT_NOT_READY") :
    pollForAssetReport conv upstream
      = { response := none, err := (conv e).2, calls := k, sleeps := k - 1 } := by
  obtain ⟨m, rfl⟩ : ∃ m, k = m + 1 := ⟨k - 1, by omega⟩
  obtain ⟨r, hr⟩ : ∃ r, numRetries = r + 1 + m := ⟨20 - (m + 1), by unfold numRetries; omega⟩
  unfold pollForAssetReport
  rw [hr, pollLoop_not_ready conv upstream m (r + 1) 0 0 (fun j _ hj => hnot j (by omega))]
  rw [pollLoop]
  simp only [Nat.zero_add, Nat.add_sub_cancel] at herr ⊢
  rw [herr]
  simp [hcode]

/-- C6. When the call fails with a well-formed vendor error carrying another
error code, `ToPlaidError` converts it without error, the shadowed `err` is
nil, and `pollForAssetReport` returns a nil report together with a nil error:
here on the first call and on the second call after one `PRODUCT_NOT_READY`. -/
theorem pollForAssetReport_other_code_nil_error (conversionError : GoError) :
    pollForAssetReport (ToPlaidError conversionError) (fun _ => .error serverError)
        = { response := none, err := none, calls := 1, sleeps := 0 } ∧
    pollForAssetReport (ToPlaidError conversionError) brokenOnSecond
        = { response := none, err := none, calls := 2, sleeps := 1 } := by
  constructor
  · exact pollForAssetReport_abort (ToPlaidError conversionError) (fun _ => .error serverError)
      1 serverError (by decide) (by decide) (by intro j hj; omega) rfl
      (by simp [ToPlaidError, serverError])
  · exact pollForAssetReport_abort (ToPlaidError conversionError) brokenOnSecond
      2 serverError (by decide) (by decide)
      (by intro j hj; have : j = 0 := by omega
          subst this; exact ⟨notReady, rfl, rfl⟩)
      rfl (by simp [ToPlaidError, serverError])

/-! The public-token exchange.  The lemmas on requests whose `PostForm` holds
a token describe the text of `GetAccessToken`; the server itself delivers no
such request (see `delivered`). -/

theorem GetAccessToken_not_post (api : PlaidApi) (g : Globals) (r : Request)
    (h : r.method ≠ "POST") :
    GetAccessToken api g r
      = { globals := g, outcome := .wrote (.text "Method not supported"), calls := [] } := by
  unfold GetAccessToken
  rw [if_pos h]

theorem GetAccessToken_no_token (api : PlaidApi) (g : Globals) (r : Request)
    (hm : r.method = "POST") (h : valuesGet r.postForm "public_token" = "") :
    GetAccessToken api g r
      = { globals := g, outcome := .wrote (.text "Cant find public token"), calls := [] } := by
  unfold GetAccessToken
  rw [if_neg (by simp [hm])]
  simp only [h, if_true]

theorem GetAccessToken_exchange_failed (api : PlaidApi) (g : Globals) (r : Request)
    (e : ExecError)
    (hm : r.method = "POST") (h : valuesGet r.postForm "public_token" ≠ "")
    (hx : api.itemPublicTokenExchange (valuesGet r.postForm "public_token") = .error e) :
    GetAccessToken api g r
      = { globals := g, outcome := .wrote (.text e.text),
          calls := [.itemPublicTokenExchange (valuesGet r.postForm "public_token")] } := by
  unfold GetAccessToken
  rw [if_neg (by simp [hm])]
  simp only [h, if_false, hx]

/-- After a successful exchange the stored access token and item id are the
ones of the response and the payment id is untouched, whether or not the
handler goes on to write its body. -/
theorem GetAccessToken_exchange_ok_globals (api : PlaidApi) (g : Globals) (r : Request)
    (resp : ItemPublicTokenExchangeResponse)
    (hm : r.method = "POST") (h : valuesGet r.postForm "public_token" ≠ "")
    (hx : api.itemPublicTokenExchange (valuesGet r.postForm "public_token") = .ok resp) :
    (GetAccessToken api g r).globals.accessToken = resp.accessToken ∧
      (GetAccessToken api g r).globals.itemID = resp.itemId ∧
      (GetAccessToken api g r).globals.paymentID = g.paymentID ∧
      ((GetAccessToken api g r).outcome = .wrote (.tokens resp.accessToken resp.itemId) ∨
        ∃ msg, (GetAccessToken api g r).outcome = .panicked msg) := by
  unfold GetAccessToken
  rw [if_neg (by simp [hm])]
  simp only [h, if_false, hx]
  split
  · split
    · simp
    · simp
  · simp

/-- Whatever the client sends, the handler as served changes no global and
calls no vendor endpoint; its answer depends on the method alone. -/
theorem serveSetAccessToken_never_exchanges (api : PlaidApi) (g : Globals)
    (c : ClientRequest) :
    serveSetAccessToken api g c
      = { globals := g
          outcome := .wrote (.text
            (if c.method = "POST" then "Cant find public token" else "Method not supported"))
          calls := [] } := by
  unfold serveSetAccessToken
  by_cases hm : c.method = "POST"
  · rw [GetAccessToken_no_token api g (delivered c) hm rfl, if_pos hm]
  · rw [GetAccessToken_not_post api g (delivered c) hm, if_neg hm]

/-- C10. A POST whose body carries the public token `public-1`, sent to a
server whose vendor would exchange that token: the form is never parsed, the
handler reads an empty token, answers `Cant find public token`, makes no
exchange and leaves the stored access token and item id as they were. -/
theorem serveSetAccessToken_ignores_posted_token :
    tokenPost.method = "POST" ∧
    valuesGet tokenPost.form "public_token" = "public-1" ∧
    acceptingApi.itemPublicTokenExchange "public-1"
      = .ok { accessToken := "access-new", itemId := "item-new" } ∧
    serveSetAccessToken acceptingApi storedGlobals tokenPost
      = { globals := storedGlobals
          outcome := .wrote (.text "Cant find public token")
          calls := [] } ∧
    (serveSetAccessToken acceptingApi storedGlobals tokenPost).globals.accessToken
      = "access-old" ∧
    (serveSetAccessToken acceptingApi storedGlobals tokenPost).globals.itemID
      = "item-old" := by
  refine ⟨rfl, by decide, rfl, by decide, by decide, by decide⟩

/-! Startup -/

/-- C11. Startup: `init` ends in `log.Fatal` exactly when `PLAID_CLIENT_ID`
or `PLAID_SECRET` reads as the empty string; when both are set it proceeds,
the two credentials are stored, and `PLAID_PRODUCTS`, `PLAID_COUNTRY_CODES`,
`PLAID_ENV` and `APP_PORT` keep a non-empty environment value and otherwise
become `transactions`, `US`, `sandbox` and `8000`. -/
theorem init_fatal_iff_missing_credentials (getenv : String → String) :
    ((∃ msg, init getenv = .fatal msg) ↔
      (getenv "PLAID_CLIENT_ID" = "" ∨ getenv "PLAID_SECRET" = "")) ∧
    (¬ (getenv "PLAID_CLIENT_ID" = "" ∨ getenv "PLAID_SECRET" = "") →
      ∃ cfg ce, init getenv = .started cfg ce ∧
        cfg.PLAID_CLIENT_ID = getenv "PLAID_CLIENT_ID" ∧
        cfg.PLAID_SECRET = getenv "PLAID_SECRET" ∧
        cfg.PLAID_PRODUCTS
          = (if getenv "PLAID_PRODUCTS" = "" then "transactions" else getenv "PLAID_PRODUCTS") ∧
        cfg.PLAID_COUNTRY_CODES
          = (if getenv "PLAID_COUNTRY_CODES" = "" then "US" else getenv "PLAID_COUNTRY_CODES") ∧
        cfg.PLAID_ENV = (if getenv "PLAID_ENV" = "" then "sandbox" else getenv "PLAID_ENV") ∧
        cfg.APP_PORT = (if getenv "APP_PORT" = "" then "8000" else getenv "APP_PORT")) := by
  by_cases h : getenv "PLAID_CLIENT_ID" = "" ∨ getenv "PLAID_SECRET" = ""
  · refine ⟨⟨fun _ => h, fun _ => ?_⟩, fun hn => absurd h hn⟩
    unfold init
    simp only [h, if_true]
    exact ⟨_, rfl⟩
  · have hc : ¬ getenv "PLAID_CLIENT_ID" = "" := fun hc => h (Or.inl hc)
    have hs : ¬ getenv "PLAID_SECRET" = "" := fun hs => h (Or.inr hs)
    have hrun : ∃ cfg ce, init getenv = .started cfg ce ∧
        cfg.PLAID_CLIENT_ID = getenv "PLAID_CLIENT_ID" ∧
        cfg.PLAID_SECRET = getenv "PLAID_SECRET" ∧
        cfg.PLAID_PRODUCTS
          = (if getenv "PLAID_PRODUCTS" = "" then "transactions" else getenv "PLAID_PRODUCTS") ∧
        cfg.PLAID_COUNTRY_CODES
          = (if getenv "PLAID_COUNTRY_CODES" = "" then "US" else getenv "PLAID_COUNTRY_CODES") ∧
        cfg.PLAID_ENV = (if getenv "PLAID_ENV" = "" then "sandbox" else getenv "PLAID_ENV") ∧
        cfg.APP_PORT = (if getenv "APP_PORT" = "" then "8000" else getenv "APP_PORT") := by
      unfold init
      simp only [h, hc, hs, if_false]
      exact ⟨_, _, rfl, rfl, rfl, rfl, rfl, rfl, rfl⟩
    refine ⟨⟨fun hf => ?_, fun hf => absurd hf h⟩, fun _ => hrun⟩
    obtain ⟨msg, hmsg⟩ := hf
    obtain ⟨cfg, ce, hst, _⟩ := hrun
    rw [hst] at hmsg
    cases hmsg

/-- Startup on an environment holding the credentials and a port only. -/
theorem init_demoGetenv :
    init demoGetenv = .started
      { PLAID_CLIENT_ID := "client-1", PLAID_SECRET := "secret-1", PLAID_ENV := "sandbox",
        PLAID_PRODUCTS := "transactions", PLAID_COUNTRY_CODES := "US",
        PLAID_REDIRECT_URI := "", APP_PORT := "9000" }
      (some .sandbox) := by
  decide

/-- Startup on the empty environment ends in `log.Fatal`. -/
theorem init_empty_environment :
    init (fun _ => "") = .fatal
      "Error: PLAID_SECRET or PLAID_CLIENT_ID is not set. Did you copy .env.example to .env and fill it out?" := by
  decide

/-! Eager transfer creation -/

theorem itemExists_iff_mem (array : List String) (product : String) :
    itemExists array product = true ↔ product ∈ array := by
  induction array with
  | nil => simp [itemExists]
  | cons item rest ih =>
    unfold itemExists
    by_cases h : item = product
    · simp [h]
    · have h2 : ¬ product = item := fun e => h e.symm
      simp [h, h2, ih]

/-- After a successful exchange in a process whose product list does not
hold the entry `transfer`, no transfer call is made, the transfer id is left
unchanged and the body carries the two new values. -/
theorem GetAccessToken_without_transfer (api : PlaidApi) (g : Globals) (r : Request)
    (resp : ItemPublicTokenExchangeResponse)
    (hm : r.method = "POST") (h : valuesGet r.postForm "public_token" ≠ "")
    (hx : api.itemPublicTokenExchange (valuesGet r.postForm "public_token") = .ok resp)
    (hp : "transfer" ∉ stringsSplit g.PLAID_PRODUCTS ',') :
    GetAccessToken api g r
      = { globals := { g with accessToken := resp.accessToken, itemID := resp.itemId }
          outcome := .wrote (.tokens resp.accessToken resp.itemId)
          calls := [.itemPublicTokenExchange (valuesGet r.postForm "public_token")] } := by
  have hi : itemExists (stringsSplit g.PLAID_PRODUCTS ',') "transfer" = false := by
    cases hb : itemExists (stringsSplit g.PLAID_PRODUCTS ',') "transfer"
    · rfl
    · exact absurd ((itemExists_iff_mem _ _).1 hb) hp
  unfold GetAccessToken
  rw [if_neg (by simp [hm])]
  simp only [h, if_false, hx, hi]
  rfl

/-- After a successful exchange in a process whose product list holds the
entry `transfer`, the helper is called with the new access token, and when
it returns, the transfer id is the one it returned. -/
theorem GetAccessToken_with_transfer_returned (api : PlaidApi) (g : Globals) (r : Request)
    (resp : ItemPublicTokenExchangeResponse) (calls : List ApiCall) (transferId : String)
    (err : Option GoError)
    (hm : r.method = "POST") (h : valuesGet r.postForm "public_token" ≠ "")
    (hx : api.itemPublicTokenExchange (valuesGet r.postForm "public_token") = .ok resp)
    (hp : "transfer" ∈ stringsSplit g.PLAID_PRODUCTS ',')
    (ht : authorizeAndCreateTransfer api resp.accessToken = (calls, .ok (transferId, err))) :
    GetAccessToken api g r
      = { globals := { g with accessToken := resp.accessToken, itemID := resp.itemId,
                              transferID := transferId }
          outcome := .wrote (.tokens resp.accessToken resp.itemId)
          calls := .itemPublicTokenExchange (valuesGet r.postForm "public_token") :: calls } := by
  have hi := (itemExists_iff_mem (stringsSplit g.PLAID_PRODUCTS ',') "transfer").2 hp
  unfold GetAccessToken
  rw [if_neg (by simp [hm])]
  simp only [h, if_false, hx, hi, if_true, ht]

/-- C12. The helper `itemExists` answers true exactly when some element of
the array equals the product.  In a process configured with
`PLAID_PRODUCTS = transfer`, on a POST whose body carries a public token the
vendor would exchange and for which the transfer helper would return
`transfer-1`: `transfer` is an entry of the product list, yet the handler as
served never reads the token, makes no call at all, and the transfer id
keeps its old value. -/
theorem itemExists_exact_but_transfer_never_created :
    (∀ (array : List String) (product : String),
      itemExists array product = true ↔ product ∈ array) ∧
    "transfer" ∈ stringsSplit transferGlobals.PLAID_PRODUCTS ',' ∧
    valuesGet tokenPost.form "public_token" = "public-1" ∧
    acceptingApi.itemPublicTokenExchange "public-1"
      = .ok { accessToken := "access-new", itemId := "item-new" } ∧
    (authorizeAndCreateTransfer acceptingApi "access-new").2 = .ok ("transfer-1", none) ∧
    (serveSetAccessToken acceptingApi transferGlobals tokenPost).calls = [] ∧
    (serveSetAccessToken acceptingApi transferGlobals tokenPost).globals.transferID
      = "transfer-old" := by
  refine ⟨itemExists_iff_mem, by decide, by decide, rfl, rfl, by decide, by decide⟩

end Plaid
